import Mathlib

/-!
Verification of the originsync reconciler (originsync.go, structures.go).

Go strings are modelled as lists of characters. The program only manipulates
names and addresses; on ASCII input, Go byte indexing and rune iteration
coincide, so the model below is exact on ASCII strings and the universally
quantified theorems about the name formatter carry an ASCII hypothesis.
Counterexamples are concrete ASCII inputs, where the model is exact.

I/O boundaries (HTTP responses, pod listing, node lookup) are modelled as
explicit inputs: a `World` record carries the outcome the external systems
would return, and each handler is a pure function from its inputs to the
remote calls it issues, mirroring the Go control flow line by line.
-/

namespace OriginSync

/-- Go strings as rune lists (exact on ASCII, see module docstring). -/
abbrev GoString := List Char

/-- unicode.IsLetter restricted to ASCII: a-z or A-Z. -/
def goIsLetter (c : Char) : Bool :=
  decide (('a'.toNat ≤ c.toNat ∧ c.toNat ≤ 'z'.toNat) ∨
          ('A'.toNat ≤ c.toNat ∧ c.toNat ≤ 'Z'.toNat))

/-- unicode.IsDigit restricted to ASCII: 0-9. -/
def goIsDigit (c : Char) : Bool :=
  decide ('0'.toNat ≤ c.toNat ∧ c.toNat ≤ '9'.toNat)

/-- strings.ToLower on one ASCII rune: map A-Z to a-z, keep everything else. -/
def goToLower (c : Char) : Char :=
  if 'A'.toNat ≤ c.toNat ∧ c.toNat ≤ 'Z'.toNat then Char.ofNat (c.toNat + 32) else c

/-- The character classes kept by the formatServiceName filter loop:
letters, digits, or the hyphen. -/
def validNameChar (c : Char) : Bool :=
  goIsLetter c || goIsDigit c || c == '-'

/-- strings.ReplaceAll with period replaced by hyphen, on one rune. -/
def dotToHyphen (c : Char) : Char :=
  if c == '.' then '-' else c

/-- The first three steps of formatServiceName: replace every period with a
hyphen, lowercase, and strip leading characters up to the first letter. -/
def formatStripped (serviceName : GoString) : GoString :=
  ((serviceName.map dotToHyphen).map goToLower).dropWhile (fun c => !goIsLetter c)

/-- formatServiceName from originsync.go: replace every period with a hyphen,
lowercase, strip leading characters up to the first letter, drop characters
that are not letter/digit/hyphen, and when the last scanned character is a
hyphen drop the final character of the accumulator (the loop trims exactly
one trailing hyphen). -/
def formatServiceName (serviceName : GoString) : GoString :=
  let stripped := formatStripped serviceName
  let temp := stripped.filter validNameChar
  if stripped.getLast? == some '-' then temp.dropLast else temp

example : formatServiceName "My.Service.Name.".toList = "my-service-name".toList := by decide
example : formatServiceName "123-abc".toList = "abc".toList := by decide
example : formatServiceName "a--".toList = "a-".toList := by decide
example : formatServiceName "a-".toList = "a".toList := by decide

/-! Payload structures from structures.go.  The Go fields of type
map-of-string-to-any are only ever set to the empty object or left nil by
this program, so they are modelled as `Option Unit`: `some ()` is the empty
object, `none` is the nil map (absent). -/

/-- Site from structures.go (tenant, namespace, name, kind). -/
structure Site where
  tenant : GoString
  ns : GoString
  name : GoString
  kind : GoString
  deriving DecidableEq

/-- SiteLocator from structures.go. -/
structure SiteLocator where
  site : Site
  deriving DecidableEq

/-- PrivateIP from structures.go: ip, site_locator, inside_network,
outside_network. -/
structure PrivateIP where
  ip : GoString
  siteLocator : SiteLocator
  insideNetwork : Option Unit
  outsideNetwork : Option Unit
  deriving DecidableEq

/-- OriginServer from structures.go. -/
structure OriginServer where
  privateIP : PrivateIP
  deriving DecidableEq

/-- Metadata from structures.go. -/
structure Metadata where
  name : GoString
  description : GoString
  disable : Bool
  deriving DecidableEq

/-- Spec from structures.go (the origin-pool spec payload). -/
structure Spec where
  originServers : List OriginServer
  noTLS : Option Unit
  port : Int
  sameAsEndpointPort : Option Unit
  loadbalancerAlgorithm : GoString
  endpointSelection : GoString
  deriving DecidableEq

/-- OriginPool from structures.go. -/
structure OriginPool where
  metadata : Metadata
  spec : Spec
  deriving DecidableEq

/-- Delete from the repository structures: the delete request body
(fail_if_referred, name, namespace). -/
structure Delete where
  failIfReferred : Bool
  name : GoString
  ns : GoString
  deriving DecidableEq

/-- The static configuration read from the environment at startup. -/
structure Config where
  xcNamespace : GoString
  xcToken : GoString
  xcSitename : GoString
  xcSiteinterface : GoString
  apiDomain : GoString
  deriving DecidableEq

/-- corev1 service types relevant to the watch filter. -/
inductive ServiceType where
  | clusterIP
  | nodePort
  | loadBalancer
  | externalName
  deriving DecidableEq

/-- One entry of service.Spec.Ports; NodePort is zero when unassigned. -/
structure ServicePort where
  port : Int
  nodePort : Int
  deriving DecidableEq

/-- The attributes of a corev1.Service consumed by the reconciler. -/
structure Service where
  name : GoString
  serviceType : ServiceType
  ports : List ServicePort
  deriving DecidableEq

/-- One entry of node.Status.Addresses. -/
structure NodeAddress where
  addrType : GoString
  address : GoString
  deriving DecidableEq

/-- The attributes of a corev1.Node consumed by getNodeIPsForService. -/
structure Node where
  addresses : List NodeAddress
  deriving DecidableEq

/-- The attributes of a corev1.Pod consumed by getNodeIPsForService. -/
structure Pod where
  name : GoString
  nodeName : GoString
  deriving DecidableEq

/-- One HTTP request issued to the remote API. -/
inductive RemoteCall where
  | get (url : GoString)
  | post (url : GoString) (body : OriginPool)
  | put (url : GoString) (body : OriginPool)
  | delete (url : GoString) (body : Delete)
  deriving DecidableEq

/-- The origin-pool collection URL used by createOriginPool. -/
def poolCollectionUrl (cfg : Config) : GoString :=
  cfg.apiDomain ++ "/api/config/namespaces/".toList ++ cfg.xcNamespace ++
    "/origin_pools".toList

/-- The per-pool URL used by the existence check, update and delete. -/
def poolItemUrl (cfg : Config) (name : GoString) : GoString :=
  cfg.apiDomain ++ "/api/config/namespaces/".toList ++ cfg.xcNamespace ++
    "/origin_pools/".toList ++ name

/-- Outcomes that the external systems return, fixed per reconciliation:
the HTTP status of the existence check (or a transport error), the pod
listing result, and the per-node lookup result. -/
structure World where
  existsStatus : Except Unit Nat
  podsResult : Except Unit (List Pod)
  nodeLookup : GoString → Except Unit Node

/-- The address type the resolver accepts (corev1.NodeInternalIP). -/
def nodeInternalIPType : GoString := "InternalIP".toList

/-- The inner loop of getNodeIPsForService: for each pod, skip when its node
was already recorded, look up the node (skipping pods whose lookup fails),
take the first address of type InternalIP, append it and record the node.
A node is recorded only when an internal address was actually appended,
exactly as in the Go loop. -/
def getNodeIPsLoop (lookup : GoString → Except Unit Node) :
    List Pod → List GoString → List GoString → List GoString
  | [], _seen, ips => ips
  | pod :: rest, seen, ips =>
    if pod.nodeName ∈ seen then
      getNodeIPsLoop lookup rest seen ips
    else
      match lookup pod.nodeName with
      | .error _ => getNodeIPsLoop lookup rest seen ips
      | .ok node =>
        match node.addresses.find? (fun a => a.addrType == nodeInternalIPType) with
        | none => getNodeIPsLoop lookup rest seen ips
        | some addr =>
          getNodeIPsLoop lookup rest (pod.nodeName :: seen) (ips ++ [addr.address])

/-- getNodeIPsForService from originsync.go: fail when the pod listing
fails, otherwise run the dedup loop over the listed pods. -/
def getNodeIPsForService (lookup : GoString → Except Unit Node)
    (podsResult : Except Unit (List Pod)) : Except Unit (List GoString) :=
  match podsResult with
  | .error e => .error e
  | .ok pods => .ok (getNodeIPsLoop lookup pods [] [])

/-- checkOriginPoolExists from originsync.go, as a function of the HTTP
outcome: transport error propagates, status 200 means the pool exists,
404 means it does not, anything else is an error. -/
def checkOriginPoolExists (resp : Except Unit Nat) : Except Unit Bool :=
  match resp with
  | .error _ => .error ()
  | .ok status =>
    if status = 200 then .ok true
    else if status = 404 then .ok false
    else .error ()

/-- The result of one run of createOriginPool or updateOriginPool: each
early return of the Go function is one constructor, `send` is the single
HTTP request the function issues when it reaches the end. -/
inductive PoolOutcome where
  | abortResolutionError
  | skipNoNodes
  | skipNoNodePort
  | send (call : RemoteCall)
  deriving DecidableEq

/-- createOriginPool from originsync.go, transcribed in source order:
resolve node addresses (abort on error, skip when the list is empty), read
the node port of the first declared port (skip when absent or zero), build
the payload and issue a POST to the collection URL. -/
def createOriginPool (cfg : Config) (service : Service) (w : World) : PoolOutcome :=
  let formattedServiceName := formatServiceName service.name
  match getNodeIPsForService w.nodeLookup w.podsResult with
  | .error _ => .abortResolutionError
  | .ok nodeIPs =>
    if nodeIPs.length = 0 then .skipNoNodes
    else
      match service.ports with
      | [] => .skipNoNodePort
      | p0 :: _ =>
        if p0.nodePort = 0 then .skipNoNodePort
        else
          let url := poolCollectionUrl cfg
          let originServers := nodeIPs.map (fun ip =>
            OriginServer.mk (PrivateIP.mk ip
              (SiteLocator.mk (Site.mk [] "system".toList cfg.xcSitename "site".toList))
              (some ()) none))
          let payload := OriginPool.mk
            (Metadata.mk formattedServiceName "Created by OriginSync".toList false)
            (Spec.mk originServers (some ()) p0.nodePort (some ())
              "LB_OVERRIDE".toList "LOCAL_PREFERRED".toList)
          .send (RemoteCall.post url payload)

/-- updateOriginPool from originsync.go, transcribed separately and in
source order; it differs from createOriginPool in the target URL (the
per-pool URL) and the HTTP method (PUT). -/
def updateOriginPool (cfg : Config) (service : Service) (w : World) : PoolOutcome :=
  let formattedServiceName := formatServiceName service.name
  match getNodeIPsForService w.nodeLookup w.podsResult with
  | .error _ => .abortResolutionError
  | .ok nodeIPs =>
    if nodeIPs.length = 0 then .skipNoNodes
    else
      match service.ports with
      | [] => .skipNoNodePort
      | p0 :: _ =>
        if p0.nodePort = 0 then .skipNoNodePort
        else
          let url := poolItemUrl cfg formattedServiceName
          let originServers := nodeIPs.map (fun ip =>
            OriginServer.mk (PrivateIP.mk ip
              (SiteLocator.mk (Site.mk [] "system".toList cfg.xcSitename "site".toList))
              (some ()) none))
          let payload := OriginPool.mk
            (Metadata.mk formattedServiceName "Created by OriginSync".toList false)
            (Spec.mk originServers (some ()) p0.nodePort (some ())
              "LB_OVERRIDE".toList "LOCAL_PREFERRED".toList)
          .send (RemoteCall.put url payload)

/-- The result of manageOriginPool: the existence check failed, or the
update path ran, or the create path ran. -/
inductive ManageOutcome where
  | checkError
  | updated (o : PoolOutcome)
  | created (o : PoolOutcome)
  deriving DecidableEq

/-- manageOriginPool from originsync.go: route on the existence check. -/
def manageOriginPool (cfg : Config) (service : Service) (w : World) : ManageOutcome :=
  match checkOriginPoolExists w.existsStatus with
  | .error _ => .checkError
  | .ok true => .updated (updateOriginPool cfg service w)
  | .ok false => .created (createOriginPool cfg service w)

/-- The calls a pool outcome issues: one for `send`, none otherwise. -/
def poolOutcomeCalls : PoolOutcome → List RemoteCall
  | .send c => [c]
  | _ => []

/-- The full call trace of one manageOriginPool run: the existence-check
GET at the per-pool URL, followed by whatever the routed path issues. -/
def manageOriginPoolCalls (cfg : Config) (service : Service) (w : World) :
    List RemoteCall :=
  RemoteCall.get (poolItemUrl cfg (formatServiceName service.name)) ::
    (match manageOriginPool cfg service w with
     | .checkError => []
     | .updated o => poolOutcomeCalls o
     | .created o => poolOutcomeCalls o)

/-- deleteOriginPool from originsync.go: one DELETE at the per-pool URL of
the formatted name, whose body carries fail_if_referred set to false, the
formatted name and the configured namespace. -/
def deleteOriginPool (cfg : Config) (service : Service) : RemoteCall :=
  let formattedServiceName := formatServiceName service.name
  RemoteCall.delete (poolItemUrl cfg formattedServiceName)
    (Delete.mk false formattedServiceName cfg.xcNamespace)

/-- The call trace of one deleteOriginPool run. -/
def deleteOriginPoolCalls (cfg : Config) (service : Service) : List RemoteCall :=
  [deleteOriginPool cfg service]

/-- A watch event delivered by the informer. -/
inductive Event where
  | add (svc : Service)
  | update (oldSvc newSvc : Service)
  | delete (svc : Service)

/-- The watch handlers from watchServices: add and update events of
NodePort services run manageOriginPool, delete events of NodePort services
run deleteOriginPool, everything else is ignored.  The result is the trace
of remote calls issued for the event. -/
def handleEvent (cfg : Config) (w : World) : Event → List RemoteCall
  | .add svc =>
    if svc.serviceType = ServiceType.nodePort then manageOriginPoolCalls cfg svc w
    else []
  | .update _ newSvc =>
    if newSvc.serviceType = ServiceType.nodePort then manageOriginPoolCalls cfg newSvc w
    else []
  | .delete svc =>
    if svc.serviceType = ServiceType.nodePort then deleteOriginPoolCalls cfg svc
    else []

/-! Helper lemmas about the name formatter. -/

/-- Char.ofNat round-trips through toNat below the surrogate range. -/
theorem char_toNat_ofNat {n : Nat} (h : n < 55296) : (Char.ofNat n).toNat = n := by
  simp [Char.ofNat, Nat.isValidChar, h, Char.ofNatAux, Char.toNat, UInt32.toNat,
    BitVec.toNat_ofNatLt]

/-- goToLower never produces an uppercase ASCII letter. -/
theorem goToLower_not_upper (c : Char) :
    ¬('A'.toNat ≤ (goToLower c).toNat ∧ (goToLower c).toNat ≤ 'Z'.toNat) := by
  have hA : 'A'.toNat = 65 := rfl
  have hZ : 'Z'.toNat = 90 := rfl
  unfold goToLower
  split
  next h =>
    rw [hA, hZ] at h ⊢
    have h2 : (Char.ofNat (c.toNat + 32)).toNat = c.toNat + 32 := char_toNat_ofNat (by omega)
    rw [h2]; omega
  next h =>
    rw [hA, hZ] at h ⊢
    omega

/-- The head of dropWhile fails the predicate. -/
theorem dropWhile_head_false {p : Char → Bool} :
    ∀ {l : GoString} {a : Char} {t : GoString}, l.dropWhile p = a :: t → p a = false := by
  intro l
  induction l with
  | nil => intro a t h; simp [List.dropWhile] at h
  | cons x xs ih =>
    intro a t h
    rw [List.dropWhile_cons] at h
    split at h
    · exact ih h
    · cases h; simp_all

/-- A map that fixes every member of a list fixes the list. -/
theorem map_eq_self_of_mem {f : Char → Char} :
    ∀ {l : GoString}, (∀ c ∈ l, f c = c) → l.map f = l := by
  intro l
  induction l with
  | nil => intro _; rfl
  | cons x xs ih =>
    intro h
    simp only [List.map_cons]
    rw [h x (by simp), ih (fun c hc => h c (by simp [hc]))]

/-- Every character of a formatServiceName output passed the validity
filter and came out of the lowercasing map. -/
theorem format_mem {s : GoString} {c : Char} (h : c ∈ formatServiceName s) :
    validNameChar c = true ∧ c ∈ (s.map dotToHyphen).map goToLower := by
  unfold formatServiceName at h
  simp only at h
  have hmem : c ∈ (formatStripped s).filter validNameChar := by
    split at h
    · exact (List.dropLast_sublist _).subset h
    · exact h
  refine ⟨(List.mem_filter.mp hmem).2, ?_⟩
  exact (List.dropWhile_sublist _).subset (List.mem_filter.mp hmem).1

/-- No character of a formatServiceName output is an uppercase ASCII
letter. -/
theorem format_mem_not_upper {s : GoString} {c : Char} (h : c ∈ formatServiceName s) :
    ¬('A'.toNat ≤ c.toNat ∧ c.toNat ≤ 'Z'.toNat) := by
  rcases List.mem_map.mp (format_mem h).2 with ⟨c', _, rfl⟩
  exact goToLower_not_upper c'

/-- A formatServiceName output is empty or starts with a letter. -/
theorem format_head (s : GoString) :
    formatServiceName s = [] ∨
      ∃ c rest, formatServiceName s = c :: rest ∧ goIsLetter c = true := by
  unfold formatServiceName
  simp only
  cases hst : formatStripped s with
  | nil => left; split <;> simp
  | cons c rest =>
    have hl : goIsLetter c = true := by
      have hfalse : (!goIsLetter c) = false :=
        dropWhile_head_false (p := fun c => !goIsLetter c)
          (l := (s.map dotToHyphen).map goToLower) (by rw [← hst]; rfl)
      simpa using hfalse
    have hvc : validNameChar c = true := by simp [validNameChar, hl]
    rw [List.filter_cons, if_pos hvc]
    split
    · cases hrf : rest.filter validNameChar with
      | nil => left; simp [hrf]
      | cons x xs => right; exact ⟨c, (x :: xs).dropLast, by simp [hrf, List.dropLast], hl⟩
    · right; exact ⟨c, rest.filter validNameChar, rfl, hl⟩

/-! Concrete fixtures used by counterexamples and witnesses. -/

/-- A concrete configuration whose site interface is set to Outside. -/
def cfgEx : Config :=
  Config.mk "app-ns".toList "tok".toList "site-1".toList "Outside".toList
    "https://api.example.com".toList

/-- A concrete NodePort service with one declared port. -/
def svcEx : Service :=
  Service.mk "web".toList ServiceType.nodePort [ServicePort.mk 80 30080]

/-- A concrete NodePort service with zero declared ports. -/
def svcNoPorts : Service :=
  Service.mk "web".toList ServiceType.nodePort []

/-- A node with one internal address. -/
def nodeA : Node :=
  Node.mk [NodeAddress.mk "InternalIP".toList "10.0.0.1".toList]

/-- A node with an external address before its internal address. -/
def nodeB : Node :=
  Node.mk [NodeAddress.mk "ExternalIP".toList "1.2.3.4".toList,
           NodeAddress.mk "InternalIP".toList "10.0.0.2".toList]

/-- A node lookup that knows node-a and node-b and fails on the rest. -/
def lookupEx : GoString → Except Unit Node := fun n =>
  if n = "node-a".toList then .ok nodeA
  else if n = "node-b".toList then .ok nodeB
  else .error ()

/-- Two pods on node-a and one on node-b. -/
def podsAAB : List Pod :=
  [Pod.mk "p1".toList "node-a".toList,
   Pod.mk "p2".toList "node-a".toList,
   Pod.mk "p3".toList "node-b".toList]

/-- A world whose pod listing returns no pods (resolution succeeds with an
empty endpoint set) and whose existence check returned not-found. -/
def wEmpty : World :=
  World.mk (.ok 404) (.ok []) (fun _ => .error ())

/-- A world with a single pod on node-a and a not-found existence check. -/
def wOne : World :=
  World.mk (.ok 404) (.ok [Pod.mk "p1".toList "node-a".toList]) lookupEx

/-- A world whose existence check returned HTTP 500. -/
def w500 : World :=
  World.mk (.ok 500) (.ok [Pod.mk "p1".toList "node-a".toList]) lookupEx

/-- The characters the remote naming rules accept: lowercase ASCII letters,
ASCII digits, or the hyphen. -/
def isPoolNameChar (c : Char) : Prop :=
  ('a'.toNat ≤ c.toNat ∧ c.toNat ≤ 'z'.toNat) ∨
  ('0'.toNat ≤ c.toNat ∧ c.toNat ≤ '9'.toNat) ∨ c = '-'

/-! Claim theorems. -/

/-- C2 counterexample: on input "a--" the formatter returns "a-", which
ends with a hyphen, so the claimed output shape (never ends with a hyphen)
is false as stated. -/
theorem c2_counterexample :
    formatServiceName "a--".toList = "a-".toList ∧
    (formatServiceName "a--".toList).getLast? = some '-' := by decide

/-- C2 amended: for every ASCII input, every character of the
formatServiceName output is a lowercase letter, a digit or a hyphen, and
the output is empty or starts with a lowercase letter; the output may
still end with a hyphen, because only one trailing hyphen is trimmed. -/
theorem c2_output_charset (s : GoString) (_hascii : ∀ c ∈ s, c.toNat < 128) :
    (∀ c ∈ formatServiceName s, isPoolNameChar c) ∧
    (formatServiceName s = [] ∨ ∃ c rest, formatServiceName s = c :: rest ∧
      'a'.toNat ≤ c.toNat ∧ c.toNat ≤ 'z'.toNat) := by
  constructor
  · intro c hc
    have hv := (format_mem hc).1
    have hnu := format_mem_not_upper hc
    simp only [validNameChar, goIsLetter, goIsDigit, Bool.or_eq_true,
      decide_eq_true_eq, beq_iff_eq] at hv
    unfold isPoolNameChar
    tauto
  · rcases format_head s with h | ⟨c, rest, heq, hl⟩
    · exact Or.inl h
    · right
      have hc : c ∈ formatServiceName s := by rw [heq]; exact List.mem_cons_self c rest
      have hnu := format_mem_not_upper hc
      simp only [goIsLetter, decide_eq_true_eq] at hl
      rcases hl with h | h
      · exact ⟨c, rest, heq, h⟩
      · exact absurd h hnu

/-- C2 witness: the first output character of formatting "My.Service" is a
valid pool-name character. -/
theorem c2_output_charset_witness : isPoolNameChar 'm' :=
  (c2_output_charset "My.Service".toList (by decide)).1 'm' (by decide)

/-- C3 counterexample: formatServiceName is not idempotent; on "a--" one
application gives "a-" and a second application gives "a". -/
theorem c3_counterexample :
    formatServiceName (formatServiceName "a--".toList) ≠ formatServiceName "a--".toList := by
  decide

/-- C3 amended: formatServiceName is idempotent on every ASCII input whose
output does not end with a hyphen; when the output does end with a hyphen
(input ending in two or more trailing hyphens) a second application trims
one more hyphen, so idempotence fails in general. -/
theorem c3_idempotent_no_trailing_hyphen (s : GoString)
    (_hascii : ∀ c ∈ s, c.toNat < 128)
    (hlast : (formatServiceName s).getLast? ≠ some '-') :
    formatServiceName (formatServiceName s) = formatServiceName s := by
  have hmem : ∀ c ∈ formatServiceName s, validNameChar c = true :=
    fun c hc => (format_mem hc).1
  have hnu : ∀ c ∈ formatServiceName s, ¬('A'.toNat ≤ c.toNat ∧ c.toNat ≤ 'Z'.toNat) :=
    fun c hc => format_mem_not_upper hc
  have h1 : (formatServiceName s).map dotToHyphen = formatServiceName s := by
    apply map_eq_self_of_mem
    intro c hc
    unfold dotToHyphen
    split
    next h =>
      have hv := hmem c hc
      rw [eq_of_beq h] at hv
      simp [validNameChar, goIsLetter, goIsDigit] at hv
    next => rfl
  have h2 : (formatServiceName s).map goToLower = formatServiceName s := by
    apply map_eq_self_of_mem
    intro c hc
    unfold goToLower
    exact if_neg (hnu c hc)
  have h3 : (formatServiceName s).dropWhile (fun c => !goIsLetter c) = formatServiceName s := by
    rcases format_head s with h | ⟨c, rest, heq, hl⟩
    · rw [h]; rfl
    · rw [heq, List.dropWhile_cons, if_neg (by simp [hl])]
  have h4 : (formatServiceName s).filter validNameChar = formatServiceName s :=
    List.filter_eq_self.mpr hmem
  conv_lhs => rw [formatServiceName, formatStripped]
  rw [h1, h2, h3, h4]
  split
  next h => exact absurd (eq_of_beq h) hlast
  next => rfl

/-- C3 witness: formatting "My.Service.Name." gives "my-service-name",
which does not end with a hyphen, and a second application fixes it. -/
theorem c3_idempotent_no_trailing_hyphen_witness :
    formatServiceName (formatServiceName "My.Service.Name.".toList) =
      formatServiceName "My.Service.Name.".toList :=
  c3_idempotent_no_trailing_hyphen "My.Service.Name.".toList (by decide) (by decide)

/-- C10: formatServiceName is not injective; the distinct service names
"My.Service" and "my-service" map to the same canonical pool name. -/
theorem c10_not_injective :
    "My.Service".toList ≠ "my-service".toList ∧
    formatServiceName "My.Service".toList = formatServiceName "my-service".toList := by
  decide

/-- Loop invariant of getNodeIPsLoop: the final address count is bounded
by the addresses accumulated so far plus the number of distinct node names
among the remaining pods that are not yet recorded as seen. -/
theorem getNodeIPsLoop_length_le (lookup : GoString → Except Unit Node) :
    ∀ (pods : List Pod) (seen ips : List GoString),
      (getNodeIPsLoop lookup pods seen ips).length ≤
        ips.length + ((pods.map Pod.nodeName).toFinset \ seen.toFinset).card := by
  intro pods
  induction pods with
  | nil => intro seen ips; simp [getNodeIPsLoop]
  | cons pod rest ih =>
    intro seen ips
    by_cases hmem : pod.nodeName ∈ seen
    · have hgoal : getNodeIPsLoop lookup (pod :: rest) seen ips =
          getNodeIPsLoop lookup rest seen ips := by
        simp [getNodeIPsLoop, hmem]
      rw [hgoal, List.map_cons, List.toFinset_cons,
        Finset.insert_sdiff_of_mem _ (List.mem_toFinset.mpr hmem)]
      exact ih seen ips
    · rw [List.map_cons, List.toFinset_cons,
        Finset.insert_sdiff_of_not_mem _ (fun h => hmem (List.mem_toFinset.mp h))]
      have hmono : ((rest.map Pod.nodeName).toFinset \ seen.toFinset).card ≤
          (insert pod.nodeName ((rest.map Pod.nodeName).toFinset \ seen.toFinset)).card :=
        Finset.card_le_card (Finset.subset_insert _ _)
      cases hl : lookup pod.nodeName with
      | error e =>
        have hgoal : getNodeIPsLoop lookup (pod :: rest) seen ips =
            getNodeIPsLoop lookup rest seen ips := by
          simp [getNodeIPsLoop, hmem, hl]
        rw [hgoal]
        refine le_trans (ih seen ips) ?_
        omega
      | ok node =>
        cases hf : node.addresses.find? (fun a => a.addrType == nodeInternalIPType) with
        | none =>
          have hgoal : getNodeIPsLoop lookup (pod :: rest) seen ips =
              getNodeIPsLoop lookup rest seen ips := by
            simp [getNodeIPsLoop, hmem, hl, hf]
          rw [hgoal]
          refine le_trans (ih seen ips) ?_
          omega
        | some addr =>
          have hgoal : getNodeIPsLoop lookup (pod :: rest) seen ips =
              getNodeIPsLoop lookup rest (pod.nodeName :: seen) (ips ++ [addr.address]) := by
            simp [getNodeIPsLoop, hmem, hl, hf]
          rw [hgoal]
          have h := ih (pod.nodeName :: seen) (ips ++ [addr.address])
          rw [List.length_append, List.length_singleton, List.toFinset_cons,
            Finset.sdiff_insert] at h
          set G := (rest.map Pod.nodeName).toFinset \ seen.toFinset with hG
          have hcard : (G.erase pod.nodeName).card + 1 ≤ (insert pod.nodeName G).card := by
            by_cases hg : pod.nodeName ∈ G
            · rw [Finset.insert_eq_self.mpr hg, Finset.card_erase_add_one hg]
            · rw [Finset.erase_eq_of_not_mem hg, Finset.card_insert_of_not_mem hg]
          refine le_trans h ?_
          omega

/-- C7: the endpoint resolver deduplicates by owning node.  First, for
every node lookup and pod listing the number of returned addresses is at
most the number of distinct owning nodes of the listed pods.  Second, on
the concrete listing with two pods on node-a and one on node-b, resolution
returns exactly the two internal addresses, not three. -/
theorem c7_dedup_by_node :
    (∀ (lookup : GoString → Except Unit Node) (pods : List Pod),
      ∀ ips, getNodeIPsForService lookup (Except.ok pods) = Except.ok ips →
        ips.length ≤ (pods.map Pod.nodeName).toFinset.card) ∧
    getNodeIPsForService lookupEx (Except.ok podsAAB) =
      Except.ok ["10.0.0.1".toList, "10.0.0.2".toList] := by
  constructor
  · intro lookup pods ips h
    have h0 := getNodeIPsLoop_length_le lookup pods [] []
    simp only [getNodeIPsForService, Except.ok.injEq] at h
    rw [← h]
    simpa using h0
  · rfl

/-- C7 witness: the general dedup bound applied to the concrete two-node
listing gives at most two addresses for its two distinct nodes. -/
theorem c7_dedup_by_node_witness :
    ["10.0.0.1".toList, "10.0.0.2".toList].length ≤
      (podsAAB.map Pod.nodeName).toFinset.card :=
  c7_dedup_by_node.1 lookupEx podsAAB _ rfl

/-- C1 counterexample: in a world whose pod listing succeeds with zero
pods, resolution succeeds with an empty endpoint set and the service has a
valid node port, yet both the create path and the update path return the
skip outcome and issue no remote call, contradicting the claim that the
call is still submitted. -/
theorem c1_counterexample :
    getNodeIPsForService wEmpty.nodeLookup wEmpty.podsResult = Except.ok [] ∧
    svcEx.ports.head? = some (ServicePort.mk 80 30080) ∧
    createOriginPool cfgEx svcEx wEmpty = PoolOutcome.skipNoNodes ∧
    updateOriginPool cfgEx svcEx wEmpty = PoolOutcome.skipNoNodes ∧
    poolOutcomeCalls (createOriginPool cfgEx svcEx wEmpty) = [] ∧
    poolOutcomeCalls (updateOriginPool cfgEx svcEx wEmpty) = [] :=
  ⟨rfl, rfl, rfl, rfl, rfl, rfl⟩

/-- C1 amended: when endpoint resolution succeeds with zero node
addresses, the create path and the update path both log and return without
issuing the remote call (they skip, rather than submitting a payload with
an empty backend list). -/
theorem c1_empty_resolution_skips (cfg : Config) (svc : Service) (w : World)
    (h : getNodeIPsForService w.nodeLookup w.podsResult = Except.ok []) :
    createOriginPool cfg svc w = PoolOutcome.skipNoNodes ∧
    updateOriginPool cfg svc w = PoolOutcome.skipNoNodes := by
  constructor <;> simp [createOriginPool, updateOriginPool, h]

/-- C1 witness: the amended claim applied to the concrete empty world. -/
theorem c1_empty_resolution_skips_witness :
    createOriginPool cfgEx svcEx wEmpty = PoolOutcome.skipNoNodes ∧
    updateOriginPool cfgEx svcEx wEmpty = PoolOutcome.skipNoNodes :=
  c1_empty_resolution_skips cfgEx svcEx wEmpty rfl

/-- C4 counterexample: with the site interface configured as Outside, the
payload sent by the create path still tags its single backend address with
inside_network set (and outside_network absent), so the backend is not
tagged with the configured network side. -/
theorem c4_counterexample :
    cfgEx.xcSiteinterface = "Outside".toList ∧
    createOriginPool cfgEx svcEx wOne = PoolOutcome.send (RemoteCall.post
      (poolCollectionUrl cfgEx)
      (OriginPool.mk (Metadata.mk "web".toList "Created by OriginSync".toList false)
        (Spec.mk
          [OriginServer.mk (PrivateIP.mk "10.0.0.1".toList
            (SiteLocator.mk (Site.mk [] "system".toList "site-1".toList "site".toList))
            (some ()) none)]
          (some ()) 30080 (some ()) "LB_OVERRIDE".toList "LOCAL_PREFERRED".toList))) :=
  ⟨rfl, rfl⟩

/-- C4 amended: every backend entry of every payload built by the create
and update paths unconditionally sets inside_network and leaves
outside_network absent, and the configured site-interface value is never
consulted: the outcome is identical for any value of that setting. -/
theorem c4_inside_network_unconditional (cfg : Config) (svc : Service) (w : World) :
    (∀ url p, createOriginPool cfg svc w = PoolOutcome.send (RemoteCall.post url p) →
      ∀ os ∈ p.spec.originServers,
        os.privateIP.insideNetwork = some () ∧ os.privateIP.outsideNetwork = none) ∧
    (∀ url p, updateOriginPool cfg svc w = PoolOutcome.send (RemoteCall.put url p) →
      ∀ os ∈ p.spec.originServers,
        os.privateIP.insideNetwork = some () ∧ os.privateIP.outsideNetwork = none) ∧
    (∀ iface,
      createOriginPool (Config.mk cfg.xcNamespace cfg.xcToken cfg.xcSitename iface
          cfg.apiDomain) svc w = createOriginPool cfg svc w ∧
      updateOriginPool (Config.mk cfg.xcNamespace cfg.xcToken cfg.xcSitename iface
          cfg.apiDomain) svc w = updateOriginPool cfg svc w) := by
  refine ⟨?_, ?_, fun iface => ⟨rfl, rfl⟩⟩
  · intro url p h
    unfold createOriginPool at h
    split at h
    · simp at h
    · split at h
      · simp at h
      · split at h
        · simp at h
        · split at h
          · simp at h
          · simp only [PoolOutcome.send.injEq, RemoteCall.post.injEq] at h
            obtain ⟨-, hp⟩ := h
            subst hp
            intro os hos
            simp only [List.mem_map] at hos
            obtain ⟨ip, -, rfl⟩ := hos
            exact ⟨rfl, rfl⟩
  · intro url p h
    unfold updateOriginPool at h
    split at h
    · simp at h
    · split at h
      · simp at h
      · split at h
        · simp at h
        · split at h
          · simp at h
          · simp only [PoolOutcome.send.injEq, RemoteCall.put.injEq] at h
            obtain ⟨-, hp⟩ := h
            subst hp
            intro os hos
            simp only [List.mem_map] at hos
            obtain ⟨ip, -, rfl⟩ := hos
            exact ⟨rfl, rfl⟩

/-- C4 witness: the amended claim applied to the concrete one-node world,
for the backend entry built from address 10.0.0.1. -/
theorem c4_inside_network_unconditional_witness :
    (OriginServer.mk (PrivateIP.mk "10.0.0.1".toList
      (SiteLocator.mk (Site.mk [] "system".toList "site-1".toList "site".toList))
      (some ()) none)).privateIP.insideNetwork = some () ∧
    (OriginServer.mk (PrivateIP.mk "10.0.0.1".toList
      (SiteLocator.mk (Site.mk [] "system".toList "site-1".toList "site".toList))
      (some ()) none)).privateIP.outsideNetwork = none :=
  (c4_inside_network_unconditional cfgEx svcEx wOne).1 (poolCollectionUrl cfgEx) _
    rfl _ (by decide)

/-- C5: for a service with zero declared ports or a zero node port on its
first port, neither the create path nor the update path issues any remote
call; when resolution succeeded with a nonempty address list, the outcome
is precisely the logged no-node-port precondition failure. -/
theorem c5_no_nodeport_aborts (cfg : Config) (svc : Service) (w : World)
    (h : svc.ports = [] ∨ ∃ p0 ps, svc.ports = p0 :: ps ∧ p0.nodePort = 0) :
    poolOutcomeCalls (createOriginPool cfg svc w) = [] ∧
    poolOutcomeCalls (updateOriginPool cfg svc w) = [] ∧
    (∀ ips, getNodeIPsForService w.nodeLookup w.podsResult = Except.ok ips → ips ≠ [] →
      createOriginPool cfg svc w = PoolOutcome.skipNoNodePort ∧
      updateOriginPool cfg svc w = PoolOutcome.skipNoNodePort) := by
  have hcases : (createOriginPool cfg svc w = PoolOutcome.abortResolutionError ∨
      createOriginPool cfg svc w = PoolOutcome.skipNoNodes ∨
      createOriginPool cfg svc w = PoolOutcome.skipNoNodePort) ∧
      (updateOriginPool cfg svc w = PoolOutcome.abortResolutionError ∨
      updateOriginPool cfg svc w = PoolOutcome.skipNoNodes ∨
      updateOriginPool cfg svc w = PoolOutcome.skipNoNodePort) := by
    cases hres : getNodeIPsForService w.nodeLookup w.podsResult with
    | error e =>
      exact ⟨Or.inl (by simp [createOriginPool, hres]),
             Or.inl (by simp [updateOriginPool, hres])⟩
    | ok ips =>
      by_cases hlen : ips.length = 0
      · exact ⟨Or.inr (Or.inl (by simp [createOriginPool, hres, hlen])),
               Or.inr (Or.inl (by simp [updateOriginPool, hres, hlen]))⟩
      · rcases h with hpl | ⟨p0, ps, hpl, hnp⟩
        · exact ⟨Or.inr (Or.inr (by simp [createOriginPool, hres, hlen, hpl])),
                 Or.inr (Or.inr (by simp [updateOriginPool, hres, hlen, hpl]))⟩
        · exact ⟨Or.inr (Or.inr (by simp [createOriginPool, hres, hlen, hpl, hnp])),
                 Or.inr (Or.inr (by simp [updateOriginPool, hres, hlen, hpl, hnp]))⟩
  refine ⟨?_, ?_, ?_⟩
  · rcases hcases.1 with hc | hc | hc <;> simp [hc, poolOutcomeCalls]
  · rcases hcases.2 with hc | hc | hc <;> simp [hc, poolOutcomeCalls]
  · intro ips hres hne
    have hlen : ¬ips.length = 0 := by simpa using hne
    rcases h with hpl | ⟨p0, ps, hpl, hnp⟩
    · exact ⟨by simp [createOriginPool, hres, hpl, hlen],
             by simp [updateOriginPool, hres, hpl, hlen]⟩
    · exact ⟨by simp [createOriginPool, hres, hpl, hnp, hlen],
             by simp [updateOriginPool, hres, hpl, hnp, hlen]⟩

/-- C5 witness: the claim applied to a NodePort service with no declared
ports, in the concrete one-node world. -/
theorem c5_no_nodeport_aborts_witness :
    poolOutcomeCalls (createOriginPool cfgEx svcNoPorts wOne) = [] ∧
    poolOutcomeCalls (updateOriginPool cfgEx svcNoPorts wOne) = [] :=
  ⟨(c5_no_nodeport_aborts cfgEx svcNoPorts wOne (Or.inl rfl)).1,
   (c5_no_nodeport_aborts cfgEx svcNoPorts wOne (Or.inl rfl)).2.1⟩

/-- C6: the reconciler routes on the existence check: not-found routes to
the create path, found routes to the update path, any other status (and
any transport error) ends the attempt with the check error and the only
remote call issued for the event is the existence GET itself. -/
theorem c6_existence_routing (cfg : Config) (svc : Service) (w : World) (st : Nat) :
    (w.existsStatus = Except.ok 404 →
      manageOriginPool cfg svc w = ManageOutcome.created (createOriginPool cfg svc w)) ∧
    (w.existsStatus = Except.ok 200 →
      manageOriginPool cfg svc w = ManageOutcome.updated (updateOriginPool cfg svc w)) ∧
    (w.existsStatus = Except.ok st → st ≠ 200 → st ≠ 404 →
      manageOriginPool cfg svc w = ManageOutcome.checkError ∧
      manageOriginPoolCalls cfg svc w =
        [RemoteCall.get (poolItemUrl cfg (formatServiceName svc.name))]) ∧
    (w.existsStatus = Except.error () →
      manageOriginPool cfg svc w = ManageOutcome.checkError) := by
  refine ⟨?_, ?_, ?_, ?_⟩
  · intro h; simp [manageOriginPool, checkOriginPoolExists, h]
  · intro h; simp [manageOriginPool, checkOriginPoolExists, h]
  · intro h h200 h404
    have hm : manageOriginPool cfg svc w = ManageOutcome.checkError := by
      simp [manageOriginPool, checkOriginPoolExists, h, h200, h404]
    exact ⟨hm, by simp [manageOriginPoolCalls, hm]⟩
  · intro h; simp [manageOriginPool, checkOriginPoolExists, h]

/-- C6 witness: in the world whose existence check returned HTTP 500, the
attempt ends with the check error and only the GET was issued. -/
theorem c6_existence_routing_witness :
    manageOriginPool cfgEx svcEx w500 = ManageOutcome.checkError ∧
    manageOriginPoolCalls cfgEx svcEx w500 =
      [RemoteCall.get (poolItemUrl cfgEx (formatServiceName svcEx.name))] :=
  (c6_existence_routing cfgEx svcEx w500 500).2.2.1 rfl (by decide) (by decide)

/-- C8: a delete event on a NodePort service issues exactly one remote
call: a DELETE at the canonical name with fail_if_referred false, with no
existence check before it. -/
theorem c8_delete_single_call (cfg : Config) (w : World) (svc : Service)
    (h : svc.serviceType = ServiceType.nodePort) :
    handleEvent cfg w (Event.delete svc) =
      [RemoteCall.delete (poolItemUrl cfg (formatServiceName svc.name))
        (Delete.mk false (formatServiceName svc.name) cfg.xcNamespace)] := by
  simp [handleEvent, h, deleteOriginPoolCalls, deleteOriginPool]

/-- C8 witness: the delete trace of the concrete service. -/
theorem c8_delete_single_call_witness :
    handleEvent cfgEx wOne (Event.delete svcEx) =
      [RemoteCall.delete (poolItemUrl cfgEx (formatServiceName svcEx.name))
        (Delete.mk false (formatServiceName svcEx.name) cfgEx.xcNamespace)] :=
  c8_delete_single_call cfgEx wOne svcEx rfl

/-- C9: for the same service and world, the create path and the update
path take the same branch and, when they send, they send the identical
payload; they differ only in HTTP method (POST versus PUT) and in target
URL (collection URL versus per-pool URL). -/
theorem c9_create_update_agree (cfg : Config) (svc : Service) (w : World) :
    (createOriginPool cfg svc w = PoolOutcome.abortResolutionError ↔
      updateOriginPool cfg svc w = PoolOutcome.abortResolutionError) ∧
    (createOriginPool cfg svc w = PoolOutcome.skipNoNodes ↔
      updateOriginPool cfg svc w = PoolOutcome.skipNoNodes) ∧
    (createOriginPool cfg svc w = PoolOutcome.skipNoNodePort ↔
      updateOriginPool cfg svc w = PoolOutcome.skipNoNodePort) ∧
    (∀ url p, createOriginPool cfg svc w = PoolOutcome.send (RemoteCall.post url p) →
      url = poolCollectionUrl cfg ∧
      updateOriginPool cfg svc w =
        PoolOutcome.send (RemoteCall.put (poolItemUrl cfg (formatServiceName svc.name)) p)) ∧
    (∀ url p, updateOriginPool cfg svc w = PoolOutcome.send (RemoteCall.put url p) →
      url = poolItemUrl cfg (formatServiceName svc.name) ∧
      createOriginPool cfg svc w =
        PoolOutcome.send (RemoteCall.post (poolCollectionUrl cfg) p)) := by
  unfold createOriginPool updateOriginPool
  cases hres : getNodeIPsForService w.nodeLookup w.podsResult with
  | error e => simp [hres]
  | ok ips =>
    by_cases hlen : ips.length = 0
    · simp [hres, hlen]
    · cases hports : svc.ports with
      | nil => simp [hres, hlen, hports]
      | cons p0 ps =>
        by_cases hnp : p0.nodePort = 0
        · simp [hres, hlen, hports, hnp]
        · simp [hres, hlen, hports, hnp]

/-- C9 witness: in the concrete one-node world the create path sends the
payload by POST at the collection URL and the update path sends the same
payload by PUT at the per-pool URL. -/
theorem c9_create_update_agree_witness :
    poolCollectionUrl cfgEx = poolCollectionUrl cfgEx ∧
    updateOriginPool cfgEx svcEx wOne = PoolOutcome.send
      (RemoteCall.put (poolItemUrl cfgEx (formatServiceName svcEx.name))
        (OriginPool.mk (Metadata.mk "web".toList "Created by OriginSync".toList false)
          (Spec.mk
            [OriginServer.mk (PrivateIP.mk "10.0.0.1".toList
              (SiteLocator.mk (Site.mk [] "system".toList "site-1".toList "site".toList))
              (some ()) none)]
            (some ()) 30080 (some ()) "LB_OVERRIDE".toList "LOCAL_PREFERRED".toList))) :=
  (c9_create_update_agree cfgEx svcEx wOne).2.2.2.1 (poolCollectionUrl cfgEx) _ rfl

end OriginSync
